import Mathlib

/-!
Shallow embedding of `src/plots/plotting.py` (module `plots.plotting`).

The module has four functions:

* `read_flux(filename)` — `return(pd.read_table(filename, index_col=0))`
* `read_surfacedensity(filename)` — body is `pass`
* `plot_inwardflux(data, time, axis=None)` — nearest-time row lookup via
  `np.argmin(abs(times - time))`, column labels converted with
  `map(float, data.columns.values)`, a `semilogx` line drawn, labels set,
  then `return(fig)`
* `plot_accretion(data, time, axis=None)` — same, but the drawn y-sequence is
  `np.hstack((flux[1::] - flux[0:-1], [0]))`

Numeric values are modelled exactly as rationals (`ℚ`).  The collaborating
libraries (pandas parsing, numpy argmin, matplotlib figures/axes) are modelled
by their documented behaviour on the input format described by the spec, as
explicit Lean functions below; each such definition notes what it models.
-/

/-- Errors the Python code can raise at runtime on the paths the claims talk
about: `valueError` models `ValueError` (from `np.argmin` of an empty array or
from `float()` on a non-numeric string); `unboundLocalFig` models the
`UnboundLocalError` raised by `return(fig)` when `fig` was never assigned
because a caller-supplied axis skipped the `fig = plt.figure()` branch. -/
inductive PyError where
  | valueError
  | unboundLocalFig
deriving DecidableEq

/-- Models a matplotlib 2D line artist: the x data and y data handed to
`axis.semilogx(xs, ys)`. -/
structure LineArtist where
  xs : List ℚ
  ys : List ℚ
deriving DecidableEq

/-- Models a matplotlib axis: the list of line artists drawn on it (in drawing
order) and the two axis labels. -/
structure Axis where
  lines : List LineArtist
  xlabel : String
  ylabel : String
deriving DecidableEq

/-- Models a matplotlib figure: the list of subplot axes it contains. -/
structure Figure where
  subplots : List Axis
deriving DecidableEq

/-- Result of running one of the plotting functions to completion: either a
raised exception or a returned `Figure` value. -/
inductive Outcome where
  | raised (e : PyError)
  | returned (f : Figure)
deriving DecidableEq

/-- A fresh axis as produced by `fig.add_subplot(111)`: no artists, empty
labels. -/
def Axis.empty : Axis := ⟨[], "", ""⟩

/-- A pandas column label: `pd.read_table` keeps header fields as strings
(`Label.str`), while a label that had been converted to a number would be a
`Label.num`.  The distinction is observable: the renderers apply `float` to
`data.columns.values`, which succeeds on both forms. -/
inductive Label where
  | str (s : String)
  | num (q : ℚ)
deriving DecidableEq

/-- Models the in-memory table returned by `pd.read_table(filename,
index_col=0)`: the column labels (from the header row, minus the index
column's own label) and the data rows, each a pair of the row's index label
(the time, parsed as a number by pandas' dtype inference) and the row's
values. `data.index.values` is `rows.map Prod.fst`, `data.columns.values` is
`colLabels`, and `data.iloc[i].values` is `(rows.getD i _).2`. -/
structure FluxTable where
  colLabels : List Label
  rows : List (ℚ × List ℚ)
deriving DecidableEq

/-- The time index of the table, `data.index.values`. -/
def FluxTable.times (t : FluxTable) : List ℚ := t.rows.map Prod.fst

/-- Numeric value of one digit character. -/
def digitVal (c : Char) : ℕ := c.toNat - 48

/-- Reads a non-empty run of decimal digits left to right, accumulating; fails
on the first non-digit character. -/
def parseDigitsFrom (acc : ℕ) : List Char → Option ℕ
  | [] => some acc
  | c :: cs => if c.isDigit then parseDigitsFrom (10 * acc + digitVal c) cs else none

/-- Parses a non-empty all-digit character list as a natural number. -/
def parseNatDigits (cs : List Char) : Option ℕ :=
  if cs.isEmpty then none else parseDigitsFrom 0 cs

/-- Splits a character list at the first `'.'`, returning the prefix and, when
a dot is present, the suffix after it. -/
def splitAtDot : List Char → List Char × Option (List Char)
  | [] => ([], none)
  | c :: cs =>
    if c = '.' then ([], some cs)
    else
      let p := splitAtDot cs
      (c :: p.1, p.2)

/-- Parses an unsigned decimal literal (`"12"`, `"2.5"`, `"1."`, `".5"`) as an
exact rational; fails when a non-digit appears or no digit is present. -/
def parseDecimal (cs : List Char) : Option ℚ :=
  let p := splitAtDot cs
  match p.2 with
  | none => (parseNatDigits cs).map (fun n => (n : ℚ))
  | some fracDigits =>
    if p.1.isEmpty && fracDigits.isEmpty then none
    else
      match (if p.1.isEmpty then some 0 else parseNatDigits p.1),
            (if fracDigits.isEmpty then some 0 else parseNatDigits fracDigits) with
      | some ip, some fp => some ((ip : ℚ) + (fp : ℚ) / (10 : ℚ) ^ fracDigits.length)
      | _, _ => none

/-- Models Python's `float(s)` on a string, restricted to plain signed decimal
literals (the form the spec's input format produces); returns `none` where
`float` raises `ValueError`. -/
def pyFloat (s : String) : Option ℚ :=
  match s.toList with
  | [] => none
  | c :: rest =>
    if c = '-' then (parseDecimal rest).map (fun q => -q)
    else if c = '+' then parseDecimal rest
    else parseDecimal (c :: rest)

/-- Models Python's `float` applied to a pandas column label, as in
`map(float, data.columns.values)`. -/
def Label.toFloat : Label → Option ℚ
  | .str s => pyFloat s
  | .num q => some q

/-- Index and value of the first minimum of the non-empty list `v :: l`:
models the scan `np.argmin` performs, keeping the earliest index at which the
minimum occurs. -/
def argmin_core (v : ℚ) : List ℚ → ℕ × ℚ
  | [] => (0, v)
  | w :: ws =>
    let p := argmin_core w ws
    if p.2 < v then (p.1 + 1, p.2) else (0, v)

/-- Models `np.argmin`: the index of the first occurrence of the minimum of a
list, or `none` (a raised `ValueError`) on an empty list. -/
def np_argmin : List ℚ → Option ℕ
  | [] => none
  | v :: vs => some (argmin_core v vs).1

/-- The nearest-time lookup `np.argmin(abs(times - time))` shared by both
renderers (`closest_time_index` in the source). -/
def closest_time_index (times : List ℚ) (time : ℚ) : Option ℕ :=
  np_argmin (times.map (fun x => |x - time|))

/-- The accretion transform `np.hstack((flux[1::] - flux[0:-1], [0]))`:
elementwise differences of the tail against the init, with a `0` appended. -/
def accretion_of (flux : List ℚ) : List ℚ :=
  List.zipWith (fun a b => a - b) (flux.drop 1) flux.dropLast ++ [0]

/-- State after a call to one of the plotting functions: the final state of
the axis that was drawn on (the caller's axis, or the freshly created
subplot), and the call's outcome (returned figure or raised exception). -/
structure PlotResult where
  axisAfter : Axis
  outcome : Outcome
deriving DecidableEq

/-- Embeds `plot_inwardflux(data, time, axis=None)`.  Steps, in source order:
create a figure and subplot when no axis is given; `np.argmin` over the
absolute time differences (raises `ValueError` on an empty index);
`map(float, data.columns.values)` (raises `ValueError` on a non-numeric
label); extract the selected row; draw it with `semilogx`; set the labels;
`return(fig)`, which raises `UnboundLocalError` when an axis was supplied
because `fig` was never assigned. -/
def plot_inwardflux (data : FluxTable) (time : ℚ) (axis : Option Axis) : PlotResult :=
  let ax0 := axis.getD Axis.empty
  match closest_time_index data.times time with
  | none => ⟨ax0, .raised .valueError⟩
  | some i =>
    match data.colLabels.mapM Label.toFloat with
    | none => ⟨ax0, .raised .valueError⟩
    | some smas =>
      let flux := (data.rows.getD i (0, [])).2
      let ax1 : Axis :=
        ⟨ax0.lines ++ [⟨smas, flux⟩],
         "Distance from star [AU]",
         "Inward pebble flux [M$_\x7b\\oplus\x7d$/yr]"⟩
      let out : Outcome :=
        match axis with
        | none => .returned ⟨[ax1]⟩
        | some _ => .raised .unboundLocalFig
      ⟨ax1, out⟩

/-- Embeds `plot_accretion(data, time, axis=None)`: identical to
`plot_inwardflux` through row extraction, then draws
`np.hstack((flux[1::] - flux[0:-1], [0]))` instead of the row itself. -/
def plot_accretion (data : FluxTable) (time : ℚ) (axis : Option Axis) : PlotResult :=
  let ax0 := axis.getD Axis.empty
  match closest_time_index data.times time with
  | none => ⟨ax0, .raised .valueError⟩
  | some i =>
    match data.colLabels.mapM Label.toFloat with
    | none => ⟨ax0, .raised .valueError⟩
    | some smas =>
      let flux := (data.rows.getD i (0, [])).2
      let ax1 : Axis :=
        ⟨ax0.lines ++ [⟨smas, accretion_of flux⟩],
         "Distance from star [AU]",
         "d(inward flux)/dlog(orbital distance)"⟩
      let out : Outcome :=
        match axis with
        | none => .returned ⟨[ax1]⟩
        | some _ => .raised .unboundLocalFig
      ⟨ax1, out⟩

/-- Classifies failures of `read_flux`, following the spec's taxonomy:
`fileReadError` for a missing/unreadable path, `parseError` for content not in
the expected tabular shape. -/
inductive ReadError where
  | fileReadError
  | parseError
deriving DecidableEq

/-- Result of `read_flux`: a raised error or the materialized table. -/
inductive ReadResult where
  | error (e : ReadError)
  | ok (t : FluxTable)
deriving DecidableEq

/-- Parses one body line of the input file: the first field is the time (row
index label, numeric by pandas dtype inference), the remaining fields are the
flux values. -/
def parseRow (fields : List String) : Option (ℚ × List ℚ) :=
  match fields with
  | [] => none
  | t :: vs =>
    match pyFloat t, vs.mapM pyFloat with
    | some tq, some vqs => some (tq, vqs)
    | _, _ => none

/-- Models `pd.read_table(·, index_col=0)` on tokenized file content (each
line a list of whitespace-separated fields, per the spec's input format:
header row = index label plus one label per distance column, body rows = time
plus one value per column).  Column labels are kept as strings — pandas does
not convert header fields to numbers.  Numeric body fields are parsed exactly;
content not in that shape is a `parseError`. -/
def read_table (content : List (List String)) : ReadResult :=
  match content with
  | [] => .error .parseError
  | header :: body =>
    match header with
    | [] => .error .parseError
    | _ :: cols =>
      match body.mapM parseRow with
      | none => .error .parseError
      | some rows =>
        if rows.all (fun r => r.2.length = cols.length) then
          .ok ⟨cols.map Label.str, rows⟩
        else .error .parseError

/-- Embeds `read_flux(filename)`, i.e. `pd.read_table(filename, index_col=0)`.
The ambient filesystem is passed explicitly as an association list from path
to tokenized content; a path not in it raises the file-read error. -/
def read_flux (fs : List (String × List (List String))) (filename : String) : ReadResult :=
  match fs.lookup filename with
  | none => .error .fileReadError
  | some content => read_table content

/-- Embeds `read_surfacedensity(filename)`: the body is `pass`, so the call
returns Python's `None` for every input — modelled as `none`. -/
def read_surfacedensity (filename : String) : Option FluxTable :=
  none

/-- Concrete two-row table used to instantiate general theorems. -/
def tbl0 : FluxTable :=
  ⟨[Label.str "1.0", Label.str "2.0"], [(0, [1, 2]), (1, [3, 4])]⟩

/-- Concrete table whose time index is the spec's example `[0.0, 1.0, 2.5,
5.0]`. -/
def tbl4 : FluxTable :=
  ⟨[Label.str "1.0", Label.str "2.0"],
   [(0, [1, 2]), (1, [3, 4]), (5/2, [5, 6]), (5, [7, 8])]⟩

/-- Concrete table with one row and two columns. -/
def tbl1x2 : FluxTable :=
  ⟨[Label.str "1.0", Label.str "2.0"], [(0, [1, 3])]⟩

/-- Concrete table with an empty time index. -/
def emptyTable : FluxTable := ⟨[], []⟩

/-- Concrete filesystem holding one well-formed flux file with numeric column
labels. -/
def fsGood : List (String × List (List String)) :=
  [("flux.txt", [["t", "1.0", "2.0"], ["0.0", "1.0", "2.0"]])]

/-- Concrete filesystem holding a flux file whose distance column header is
not numeric. -/
def fsBad : List (String × List (List String)) :=
  [("flux.txt", [["t", "banana"], ["0.0", "1.0"]])]

/-! ### General lemmas about the embedded operations -/

/-- The first-minimum index returned by `argmin_core` is within bounds. -/
theorem argmin_core_fst_le (v : ℚ) (l : List ℚ) : (argmin_core v l).1 ≤ l.length := by
  induction l generalizing v with
  | nil => simp [argmin_core]
  | cons w ws ih =>
    simp only [argmin_core, List.length_cons]
    split
    · exact Nat.succ_le_succ (ih w)
    · simp

/-- The value tracked by `argmin_core` is the element at the returned index. -/
theorem argmin_core_snd_getD (v : ℚ) (l : List ℚ) :
    (v :: l).getD (argmin_core v l).1 0 = (argmin_core v l).2 := by
  induction l generalizing v with
  | nil => simp [argmin_core]
  | cons w ws ih =>
    simp only [argmin_core]
    split
    · simp only [List.getD_cons_succ]
      exact ih w
    · simp

/-- The value tracked by `argmin_core` is a lower bound for every element of
the scanned list. -/
theorem argmin_core_min (v : ℚ) (l : List ℚ) :
    ∀ j, j < l.length + 1 → (argmin_core v l).2 ≤ (v :: l).getD j 0 := by
  induction l generalizing v with
  | nil =>
    intro j hj
    simp only [List.length_nil, Nat.zero_add] at hj
    have : j = 0 := by omega
    subst this
    simp [argmin_core]
  | cons w ws ih =>
    intro j hj
    by_cases h : (argmin_core w ws).2 < v
    · cases j with
      | zero => simp [argmin_core, h, le_of_lt h]
      | succ k =>
        have hk : k < ws.length + 1 := by simpa [List.length_cons] using hj
        simpa [argmin_core, h] using ih w k hk
    · cases j with
      | zero => simp [argmin_core, h]
      | succ k =>
        have hk : k < ws.length + 1 := by simpa [List.length_cons] using hj
        have h1 : v ≤ (argmin_core w ws).2 := le_of_not_lt h
        have h2 := ih w k hk
        simpa [argmin_core, h] using le_trans h1 h2

/-- Every element strictly before the index returned by `argmin_core` is
strictly larger than the tracked value: the scan keeps the first occurrence of
the minimum. -/
theorem argmin_core_first (v : ℚ) (l : List ℚ) :
    ∀ j, j < (argmin_core v l).1 → (argmin_core v l).2 < (v :: l).getD j 0 := by
  induction l generalizing v with
  | nil =>
    intro j hj
    simp [argmin_core] at hj
  | cons w ws ih =>
    intro j hj
    by_cases h : (argmin_core w ws).2 < v
    · cases j with
      | zero => simpa [argmin_core, h] using h
      | succ k =>
        have hk : k < (argmin_core w ws).1 := by
          simpa [argmin_core, h] using hj
        simpa [argmin_core, h] using ih w k hk
    · simp [argmin_core, h] at hj

/-- Index arithmetic for the absolute-difference list used by the lookup. -/
theorem getD_map_abs (q : ℚ) (l : List ℚ) (j : ℕ) (h : j < l.length) :
    (l.map (fun x => |x - q|)).getD j 0 = |l.getD j 0 - q| := by
  induction l generalizing j with
  | nil => cases h
  | cons a as ih =>
    cases j with
    | zero => simp
    | succ k =>
      have hk : k < as.length := by simpa [List.length_cons] using h
      simpa using ih k hk

/-- Specification of the nearest-time lookup on a non-empty time index: it
returns an in-bounds index whose time minimizes the absolute difference to the
requested time, and every strictly earlier index has a strictly larger
difference (first-occurrence tie-break). -/
theorem closest_time_index_spec (times : List ℚ) (q : ℚ) (h : times ≠ []) :
    ∃ i, closest_time_index times q = some i ∧ i < times.length ∧
      (∀ j, j < times.length → |times.getD i 0 - q| ≤ |times.getD j 0 - q|) ∧
      (∀ j, j < i → |times.getD i 0 - q| < |times.getD j 0 - q|) := by
  cases times with
  | nil => exact absurd rfl h
  | cons t ts =>
    refine ⟨(argmin_core (|t - q|) (ts.map fun x => |x - q|)).1, rfl, ?_, ?_, ?_⟩
    · have hb := argmin_core_fst_le (|t - q|) (ts.map fun x => |x - q|)
      simp only [List.length_map] at hb
      simpa [List.length_cons] using Nat.lt_succ_of_le hb
    · intro j hj
      have hmap : (|t - q|) :: (ts.map fun x => |x - q|) =
          (t :: ts).map fun x => |x - q| := by simp
      have hb := argmin_core_fst_le (|t - q|) (ts.map fun x => |x - q|)
      have hi : (argmin_core (|t - q|) (ts.map fun x => |x - q|)).1 <
          (t :: ts).length := by
        simp only [List.length_map] at hb
        simpa [List.length_cons] using Nat.lt_succ_of_le hb
      have hv := argmin_core_snd_getD (|t - q|) (ts.map fun x => |x - q|)
      have hm := argmin_core_min (|t - q|) (ts.map fun x => |x - q|) j
        (by simpa [List.length_map, List.length_cons] using hj)
      rw [hmap] at hv hm
      rw [getD_map_abs q (t :: ts) _ hi] at hv
      rw [getD_map_abs q (t :: ts) j hj] at hm
      rw [hv]
      exact hm
    · intro j hj
      have hmap : (|t - q|) :: (ts.map fun x => |x - q|) =
          (t :: ts).map fun x => |x - q| := by simp
      have hb := argmin_core_fst_le (|t - q|) (ts.map fun x => |x - q|)
      have hi : (argmin_core (|t - q|) (ts.map fun x => |x - q|)).1 <
          (t :: ts).length := by
        simp only [List.length_map] at hb
        simpa [List.length_cons] using Nat.lt_succ_of_le hb
      have hjlen : j < (t :: ts).length := lt_trans hj hi
      have hv := argmin_core_snd_getD (|t - q|) (ts.map fun x => |x - q|)
      have hf := argmin_core_first (|t - q|) (ts.map fun x => |x - q|) j hj
      rw [hmap] at hv hf
      rw [getD_map_abs q (t :: ts) _ hi] at hv
      rw [getD_map_abs q (t :: ts) j hjlen] at hf
      rw [hv]
      exact hf

/-- Unfolds `plot_inwardflux` with no axis supplied, on a table whose lookup
and column conversion both succeed: a single-line axis and a returned figure
containing exactly that subplot. -/
theorem plot_inwardflux_none_eq (data : FluxTable) (q : ℚ) (i : ℕ) (smas : List ℚ)
    (hi : closest_time_index data.times q = some i)
    (hs : data.colLabels.mapM Label.toFloat = some smas) :
    plot_inwardflux data q none =
      ⟨⟨[⟨smas, (data.rows.getD i (0, [])).2⟩],
        "Distance from star [AU]",
        "Inward pebble flux [M$_\x7b\\oplus\x7d$/yr]"⟩,
       .returned ⟨[⟨[⟨smas, (data.rows.getD i (0, [])).2⟩],
        "Distance from star [AU]",
        "Inward pebble flux [M$_\x7b\\oplus\x7d$/yr]"⟩]⟩⟩ := by
  unfold plot_inwardflux
  rw [hi, hs]
  rfl

/-- Unfolds `plot_inwardflux` with a caller-supplied axis, on a table whose
lookup and column conversion both succeed: the line is appended to the axis,
the labels are overwritten, and `return(fig)` raises. -/
theorem plot_inwardflux_some_eq (data : FluxTable) (q : ℚ) (a : Axis) (i : ℕ) (smas : List ℚ)
    (hi : closest_time_index data.times q = some i)
    (hs : data.colLabels.mapM Label.toFloat = some smas) :
    plot_inwardflux data q (some a) =
      ⟨⟨a.lines ++ [⟨smas, (data.rows.getD i (0, [])).2⟩],
        "Distance from star [AU]",
        "Inward pebble flux [M$_\x7b\\oplus\x7d$/yr]"⟩,
       .raised .unboundLocalFig⟩ := by
  unfold plot_inwardflux
  rw [hi, hs]
  rfl

/-- Unfolds `plot_accretion` with no axis supplied, on a table whose lookup
and column conversion both succeed. -/
theorem plot_accretion_none_eq (data : FluxTable) (q : ℚ) (i : ℕ) (smas : List ℚ)
    (hi : closest_time_index data.times q = some i)
    (hs : data.colLabels.mapM Label.toFloat = some smas) :
    plot_accretion data q none =
      ⟨⟨[⟨smas, accretion_of (data.rows.getD i (0, [])).2⟩],
        "Distance from star [AU]",
        "d(inward flux)/dlog(orbital distance)"⟩,
       .returned ⟨[⟨[⟨smas, accretion_of (data.rows.getD i (0, [])).2⟩],
        "Distance from star [AU]",
        "d(inward flux)/dlog(orbital distance)"⟩]⟩⟩ := by
  unfold plot_accretion
  rw [hi, hs]
  rfl

/-- Unfolds `plot_accretion` with a caller-supplied axis, on a table whose
lookup and column conversion both succeed. -/
theorem plot_accretion_some_eq (data : FluxTable) (q : ℚ) (a : Axis) (i : ℕ) (smas : List ℚ)
    (hi : closest_time_index data.times q = some i)
    (hs : data.colLabels.mapM Label.toFloat = some smas) :
    plot_accretion data q (some a) =
      ⟨⟨a.lines ++ [⟨smas, accretion_of (data.rows.getD i (0, [])).2⟩],
        "Distance from star [AU]",
        "d(inward flux)/dlog(orbital distance)"⟩,
       .raised .unboundLocalFig⟩ := by
  unfold plot_accretion
  rw [hi, hs]
  rfl

/-- With an empty table both steps of the lookup fail: `np.argmin` raises and
nothing is drawn. -/
theorem plot_inwardflux_empty_rows (data : FluxTable) (q : ℚ) (ax : Option Axis)
    (h : data.rows = []) :
    plot_inwardflux data q ax = ⟨ax.getD Axis.empty, .raised .valueError⟩ := by
  simp [plot_inwardflux, FluxTable.times, h, closest_time_index, np_argmin]

/-- With an empty table `plot_accretion` raises before drawing as well. -/
theorem plot_accretion_empty_rows (data : FluxTable) (q : ℚ) (ax : Option Axis)
    (h : data.rows = []) :
    plot_accretion data q ax = ⟨ax.getD Axis.empty, .raised .valueError⟩ := by
  simp [plot_accretion, FluxTable.times, h, closest_time_index, np_argmin]

/-- When a column label fails `float` conversion, `plot_inwardflux` raises
`ValueError` and nothing is drawn on the axis. -/
theorem plot_inwardflux_badlabels (data : FluxTable) (q : ℚ) (ax : Option Axis)
    (h : data.colLabels.mapM Label.toFloat = none) :
    plot_inwardflux data q ax = ⟨ax.getD Axis.empty, .raised .valueError⟩ := by
  cases hc : closest_time_index data.times q with
  | none =>
    unfold plot_inwardflux
    rw [hc]
  | some i =>
    unfold plot_inwardflux
    rw [hc, h]

/-- When a column label fails `float` conversion, `plot_accretion` raises
`ValueError` and nothing is drawn on the axis. -/
theorem plot_accretion_badlabels (data : FluxTable) (q : ℚ) (ax : Option Axis)
    (h : data.colLabels.mapM Label.toFloat = none) :
    plot_accretion data q ax = ⟨ax.getD Axis.empty, .raised .valueError⟩ := by
  cases hc : closest_time_index data.times q with
  | none =>
    unfold plot_accretion
    rw [hc]
  | some i =>
    unfold plot_accretion
    rw [hc, h]

/-- Length of the accretion transform: one more than the number of elementwise
differences, so equal to the input length for non-empty input. -/
theorem accretion_of_length (f : List ℚ) (h : 1 ≤ f.length) :
    (accretion_of f).length = f.length := by
  simp only [accretion_of, List.length_append, List.length_zipWith,
    List.length_drop, List.length_dropLast, List.length_cons, List.length_nil]
  omega

/-- Interior entries of the accretion transform are the forward differences. -/
theorem accretion_of_getD (f : List ℚ) (i : ℕ) (h : i + 1 < f.length) :
    (accretion_of f).getD i 0 = f.getD (i + 1) 0 - f.getD i 0 := by
  have hz : i < (List.zipWith (fun a b => a - b) (f.drop 1) f.dropLast).length := by
    simp only [List.length_zipWith, List.length_drop, List.length_dropLast]
    omega
  have hd : i < (f.drop 1).length := by simp; omega
  have hdl : i < f.dropLast.length := by simp; omega
  have h1 : i + 1 < f.length := h
  have h0 : i < f.length := by omega
  rw [accretion_of, List.getD_append _ _ _ _ hz, List.getD_eq_getElem _ _ hz,
    List.getElem_zipWith]
  rw [List.getD_eq_getElem _ _ h1, List.getD_eq_getElem _ _ h0]
  congr 1
  · rw [List.getElem_drop]
    congr 1
    omega
  · exact List.getElem_dropLast f i hdl

/-- The final entry of the accretion transform is the appended literal `0`. -/
theorem accretion_of_last (f : List ℚ) (h : 1 ≤ f.length) :
    (accretion_of f).getD (f.length - 1) 0 = 0 := by
  have hz : (List.zipWith (fun a b => a - b) (f.drop 1) f.dropLast).length
      = f.length - 1 := by
    simp only [List.length_zipWith, List.length_drop, List.length_dropLast]
    omega
  rw [accretion_of, List.getD_append_right _ _ _ _ (by omega), hz]
  simp

/-- The accretion transform of a one-element list is `[0]`. -/
theorem accretion_of_singleton (x : ℚ) : accretion_of [x] = [0] := by
  simp [accretion_of]

/-! ### Concrete evaluations on the fixtures -/

/-- Converting the literal `"0.0"`. -/
theorem pyFloat_zero : pyFloat "0.0" = some 0 := by
  simp [pyFloat, parseDecimal, splitAtDot, parseNatDigits, parseDigitsFrom, digitVal]

/-- Converting the literal `"1.0"`. -/
theorem pyFloat_one : pyFloat "1.0" = some 1 := by
  simp [pyFloat, parseDecimal, splitAtDot, parseNatDigits, parseDigitsFrom, digitVal]

/-- Converting the literal `"2.0"`. -/
theorem pyFloat_two : pyFloat "2.0" = some 2 := by
  simp [pyFloat, parseDecimal, splitAtDot, parseNatDigits, parseDigitsFrom, digitVal]

/-- The numeric label strings of the fixture tables convert to `[1, 2]`. -/
theorem labels12_eval :
    [Label.str "1.0", Label.str "2.0"].mapM Label.toFloat = some [1, 2] := by
  simp [List.mapM, List.mapM.loop, Label.toFloat, pyFloat_one, pyFloat_two]

/-- The fixture `tbl0` has convertible column labels. -/
theorem tbl0_labels : tbl0.colLabels.mapM Label.toFloat = some [1, 2] := labels12_eval

/-- The fixture `tbl4` has convertible column labels. -/
theorem tbl4_labels : tbl4.colLabels.mapM Label.toFloat = some [1, 2] := labels12_eval

/-- The fixture `tbl1x2` has convertible column labels. -/
theorem tbl1x2_labels : tbl1x2.colLabels.mapM Label.toFloat = some [1, 2] := labels12_eval

/-- Nearest-time lookup on the spec's example index at query `2.6`. -/
theorem cti_tbl4_26 : closest_time_index tbl4.times (13/5) = some 2 := by
  norm_num [closest_time_index, np_argmin, argmin_core, tbl4, FluxTable.times, abs]

/-- Nearest-time lookup on the spec's example index at query `1.8`. -/
theorem cti_tbl4_18 : closest_time_index tbl4.times (9/5) = some 2 := by
  norm_num [closest_time_index, np_argmin, argmin_core, tbl4, FluxTable.times, abs]

/-- Nearest-time lookup on the spec's example index at the out-of-range query
`100`: the last (closest) row is selected, nothing fails. -/
theorem cti_tbl4_100 : closest_time_index tbl4.times 100 = some 3 := by
  norm_num [closest_time_index, np_argmin, argmin_core, tbl4, FluxTable.times, abs]

/-- Nearest-time lookup on `tbl0` at query `1`. -/
theorem cti_tbl0_1 : closest_time_index tbl0.times 1 = some 1 := by
  norm_num [closest_time_index, np_argmin, argmin_core, tbl0, FluxTable.times, abs]

/-- Reading the well-formed fixture file: the column index holds the label
strings `"1.0"`, `"2.0"`, the row index the parsed time `0`. -/
theorem read_flux_fsGood_eval :
    read_flux fsGood "flux.txt" =
      .ok ⟨[Label.str "1.0", Label.str "2.0"], [(0, [1, 2])]⟩ := by
  have hl : fsGood.lookup "flux.txt"
      = some [["t", "1.0", "2.0"], ["0.0", "1.0", "2.0"]] := by decide
  unfold read_flux
  rw [hl]
  have hrow : parseRow ["0.0", "1.0", "2.0"] = some (0, [1, 2]) := by
    simp [parseRow, List.mapM, List.mapM.loop, pyFloat_zero, pyFloat_one, pyFloat_two]
  simp [read_table, List.mapM, List.mapM.loop, hrow]

/-- Reading the fixture file with a non-numeric column header succeeds: the
header is kept as a string label and no error is raised. -/
theorem read_flux_fsBad_eval :
    read_flux fsBad "flux.txt" = .ok ⟨[Label.str "banana"], [(0, [1])]⟩ := by
  have hl : fsBad.lookup "flux.txt" = some [["t", "banana"], ["0.0", "1.0"]] := by decide
  unfold read_flux
  rw [hl]
  have hrow : parseRow ["0.0", "1.0"] = some (0, [1]) := by
    simp [parseRow, List.mapM, List.mapM.loop, pyFloat_zero, pyFloat_one]
  simp [read_table, List.mapM, List.mapM.loop, hrow]

/-- The accretion transform on the spec's example row. -/
theorem accretion_example : accretion_of [1, 3, 6, 6] = [2, 3, 0, 0] := by
  norm_num [accretion_of]

/-- The accretion transform on a two-element row. -/
theorem accretion_pair : accretion_of [1, 3] = [2, 0] := by
  norm_num [accretion_of]

/-! ### Claim theorems -/

/-- Claim C1: for every table with a non-empty numeric time index and every
requested time, both renderers select the row whose time label minimizes the
absolute difference to the requested time, resolving ties to the first
(earliest) occurrence of the minimum; in particular, for time index
`[0, 1, 5/2, 5]`, query `13/5` (2.6) selects row index 2 and query `9/5`
(1.8) selects row index 2. -/
theorem claim_C1_nearest_time_selection (data : FluxTable) (q : ℚ)
    (h : data.rows ≠ []) :
    (∃ i, closest_time_index data.times q = some i ∧
      i < data.times.length ∧
      (∀ j, j < data.times.length →
        |data.times.getD i 0 - q| ≤ |data.times.getD j 0 - q|) ∧
      (∀ j, j < i → |data.times.getD i 0 - q| < |data.times.getD j 0 - q|) ∧
      (∀ smas, data.colLabels.mapM Label.toFloat = some smas →
        (plot_inwardflux data q none).axisAfter.lines =
          [⟨smas, (data.rows.getD i (0, [])).2⟩] ∧
        (plot_accretion data q none).axisAfter.lines =
          [⟨smas, accretion_of (data.rows.getD i (0, [])).2⟩])) ∧
    closest_time_index tbl4.times (13/5) = some 2 ∧
    closest_time_index tbl4.times (9/5) = some 2 := by
  refine ⟨?_, cti_tbl4_26, cti_tbl4_18⟩
  have htimes : data.times ≠ [] := by
    simp only [FluxTable.times, ne_eq, List.map_eq_nil_iff]
    exact h
  obtain ⟨i, hi, hlt, hmin, hfirst⟩ := closest_time_index_spec data.times q htimes
  refine ⟨i, hi, hlt, hmin, hfirst, ?_⟩
  intro smas hs
  constructor
  · rw [plot_inwardflux_none_eq data q i smas hi hs]
  · rw [plot_accretion_none_eq data q i smas hi hs]

/-- Witness for Claim C1 at the concrete table `tbl4` (time index
`[0, 1, 5/2, 5]`): the spec's example queries select row index 2. -/
theorem claim_C1_witness :
    closest_time_index tbl4.times (13/5) = some 2 ∧
    closest_time_index tbl4.times (9/5) = some 2 :=
  ⟨(claim_C1_nearest_time_selection tbl4 (13/5) (by simp [tbl4])).2.1,
   (claim_C1_nearest_time_selection tbl4 (9/5) (by simp [tbl4])).2.2⟩

/-- Claim C2: for every selected flux row `f` of length `n ≥ 1`,
`plot_accretion` draws the y-sequence `d` with `d[i] = f[i+1] - f[i]` for
`i ∈ [0, n-2]` and `d[n-1] = 0`, so output length equals input length; in
particular `[1, 3, 6, 6]` yields `[2, 3, 0, 0]`. -/
theorem claim_C2_accretion_transform (f : List ℚ) (h : 1 ≤ f.length) :
    (accretion_of f).length = f.length ∧
    (∀ i, i + 1 < f.length →
      (accretion_of f).getD i 0 = f.getD (i + 1) 0 - f.getD i 0) ∧
    (accretion_of f).getD (f.length - 1) 0 = 0 ∧
    accretion_of [1, 3, 6, 6] = [2, 3, 0, 0] ∧
    (∀ data q i smas, closest_time_index data.times q = some i →
      data.colLabels.mapM Label.toFloat = some smas →
      (plot_accretion data q none).axisAfter.lines =
        [⟨smas, accretion_of (data.rows.getD i (0, [])).2⟩]) := by
  refine ⟨accretion_of_length f h, fun i hi => accretion_of_getD f i hi,
    accretion_of_last f h, accretion_example, ?_⟩
  intro data q i smas hi hs
  rw [plot_accretion_none_eq data q i smas hi hs]

/-- Witness for Claim C2 at the spec's example row `[1, 3, 6, 6]`. -/
theorem claim_C2_witness : accretion_of [1, 3, 6, 6] = [2, 3, 0, 0] :=
  (claim_C2_accretion_transform [1, 3, 6, 6] (by simp)).2.2.2.1

/-- Claim C9: `read_surfacedensity` produces no result (Python's `None`) for
every input path. -/
theorem claim_C9_read_surfacedensity_none (filename : String) :
    read_surfacedensity filename = none := rfl

/-- Claim C10: nearest-time selection does not require the time index to be
sorted or unique: for every table with a non-empty numeric time index in any
order, both renderers still select a row minimizing the absolute difference
to the requested time; e.g. for the unsorted, duplicated index `[5, 1, 1, 0]`
and query `1` the selected row is the earliest tied index 1. -/
theorem claim_C10_unsorted_lookup (data : FluxTable) (q : ℚ)
    (h : data.times ≠ []) :
    (∃ i, closest_time_index data.times q = some i ∧
      i < data.times.length ∧
      (∀ j, j < data.times.length →
        |data.times.getD i 0 - q| ≤ |data.times.getD j 0 - q|) ∧
      (∀ smas, data.colLabels.mapM Label.toFloat = some smas →
        (plot_inwardflux data q none).axisAfter.lines =
          [⟨smas, (data.rows.getD i (0, [])).2⟩] ∧
        (plot_accretion data q none).axisAfter.lines =
          [⟨smas, accretion_of (data.rows.getD i (0, [])).2⟩])) ∧
    closest_time_index [5, 1, 1, 0] 1 = some 1 := by
  constructor
  · obtain ⟨i, hi, hlt, hmin, _⟩ := closest_time_index_spec data.times q h
    refine ⟨i, hi, hlt, hmin, ?_⟩
    intro smas hs
    constructor
    · rw [plot_inwardflux_none_eq data q i smas hi hs]
    · rw [plot_accretion_none_eq data q i smas hi hs]
  · norm_num [closest_time_index, np_argmin, argmin_core, abs]

/-- Witness for Claim C10 at a concrete table with the unsorted, duplicated
time index `[5, 1, 1, 0]`. -/
theorem claim_C10_witness : closest_time_index [5, 1, 1, 0] 1 = some 1 :=
  (claim_C10_unsorted_lookup
    ⟨[Label.num 1], [(5, [1]), (1, [2]), (1, [3]), (0, [4])]⟩ 1
    (by simp [FluxTable.times])).2

/-- With a caller-supplied axis `plot_inwardflux` always raises: `ValueError`
from the lookup or the conversion, or `UnboundLocalError` at `return(fig)`. -/
theorem plot_inwardflux_some_raises (data : FluxTable) (q : ℚ) (a : Axis) :
    ∃ e, (plot_inwardflux data q (some a)).outcome = .raised e := by
  cases hc : closest_time_index data.times q with
  | none =>
    refine ⟨.valueError, ?_⟩
    unfold plot_inwardflux
    rw [hc]
  | some i =>
    cases hs : data.colLabels.mapM Label.toFloat with
    | none =>
      refine ⟨.valueError, ?_⟩
      unfold plot_inwardflux
      rw [hc, hs]
    | some smas =>
      refine ⟨.unboundLocalFig, ?_⟩
      rw [plot_inwardflux_some_eq data q a i smas hc hs]

/-- With a caller-supplied axis `plot_accretion` always raises as well. -/
theorem plot_accretion_some_raises (data : FluxTable) (q : ℚ) (a : Axis) :
    ∃ e, (plot_accretion data q (some a)).outcome = .raised e := by
  cases hc : closest_time_index data.times q with
  | none =>
    refine ⟨.valueError, ?_⟩
    unfold plot_accretion
    rw [hc]
  | some i =>
    cases hs : data.colLabels.mapM Label.toFloat with
    | none =>
      refine ⟨.valueError, ?_⟩
      unfold plot_accretion
      rw [hc, hs]
    | some smas =>
      refine ⟨.unboundLocalFig, ?_⟩
      rw [plot_accretion_some_eq data q a i smas hc hs]

/-- Counterexample to Claim C3 as stated: it asserts that for every call with
`axis = None` a newly created figure is returned, but on the empty table both
renderers raise `ValueError` before any figure can be returned. -/
theorem claim_C3_counterexample :
    (plot_inwardflux emptyTable 0 none).outcome = .raised .valueError ∧
    (plot_accretion emptyTable 0 none).outcome = .raised .valueError := by
  constructor
  · rw [plot_inwardflux_empty_rows emptyTable 0 none rfl]
  · rw [plot_accretion_empty_rows emptyTable 0 none rfl]

/-- Claim C3 (amended): for every call with a caller-supplied axis no figure
is ever returned — that return path always raises — while for every call with
`axis = None` that completes (lookup and label conversion succeed), a newly
created figure containing the single drawn subplot is returned. -/
theorem claim_C3_figure_return_modes (data : FluxTable) (q : ℚ) (a : Axis) :
    (∀ f, (plot_inwardflux data q (some a)).outcome ≠ .returned f) ∧
    (∀ f, (plot_accretion data q (some a)).outcome ≠ .returned f) ∧
    (∀ i smas, closest_time_index data.times q = some i →
      data.colLabels.mapM Label.toFloat = some smas →
      (plot_inwardflux data q none).outcome =
        .returned ⟨[(plot_inwardflux data q none).axisAfter]⟩ ∧
      (plot_accretion data q none).outcome =
        .returned ⟨[(plot_accretion data q none).axisAfter]⟩) := by
  refine ⟨?_, ?_, ?_⟩
  · intro f hf
    obtain ⟨e, he⟩ := plot_inwardflux_some_raises data q a
    rw [he] at hf
    cases hf
  · intro f hf
    obtain ⟨e, he⟩ := plot_accretion_some_raises data q a
    rw [he] at hf
    cases hf
  · intro i smas hi hs
    constructor
    · rw [plot_inwardflux_none_eq data q i smas hi hs]
    · rw [plot_accretion_none_eq data q i smas hi hs]

/-- Witness for Claim C3 at the concrete table `tbl0`: with a supplied axis no
figure comes back; with `axis = None` the created figure is returned. -/
theorem claim_C3_witness :
    (plot_inwardflux tbl0 1 (some Axis.empty)).outcome ≠ Outcome.returned ⟨[]⟩ ∧
    (plot_inwardflux tbl0 1 none).outcome =
      .returned ⟨[(plot_inwardflux tbl0 1 none).axisAfter]⟩ :=
  ⟨(claim_C3_figure_return_modes tbl0 1 Axis.empty).1 ⟨[]⟩,
   ((claim_C3_figure_return_modes tbl0 1 Axis.empty).2.2 1 [1, 2] cti_tbl0_1 tbl0_labels).1⟩

/-- Successful elementwise `Option`-valued map: every input element maps to
the corresponding output element. -/
theorem mapM_option_forall₂ {α β : Type} (f : α → Option β) :
    ∀ (l : List α) (l' : List β), l.mapM f = some l' →
      List.Forall₂ (fun a b => f a = some b) l l' := by
  intro l
  induction l with
  | nil =>
    intro l' h
    simp only [List.mapM_nil, Option.pure_def, Option.some.injEq] at h
    subst h
    exact List.Forall₂.nil
  | cons x xs ih =>
    intro l' h
    rw [List.mapM_cons] at h
    cases hx : f x with
    | none => rw [hx] at h; simp at h
    | some y =>
      rw [hx] at h
      cases hxs : xs.mapM f with
      | none => rw [hxs] at h; simp at h
      | some ys =>
        rw [hxs] at h
        simp at h
        subst h
        exact List.Forall₂.cons hx (ih ys hxs)

/-- Counterexample to Claim C4 as stated: reading a well-formed file with
distance header labels `"1.0"`, `"2.0"` yields a table whose column index is
the label strings, not the labels parsed as floats. -/
theorem claim_C4_counterexample :
    read_flux fsGood "flux.txt" =
      .ok ⟨[Label.str "1.0", Label.str "2.0"], [(0, [1, 2])]⟩ ∧
    [Label.str "1.0", Label.str "2.0"] ≠ [Label.num 1, Label.num 2] :=
  ⟨read_flux_fsGood_eval, by decide⟩

/-- Claim C4 (amended): for every well-formed input file, `read_flux` returns
a fully materialized table whose row index is the time values parsed from the
first column, and whose column index is the distance labels kept as strings —
they are parsed as floats later, by the renderers, not by the reader. -/
theorem claim_C4_column_labels (fs : List (String × List (List String)))
    (name : String) (header : List String) (body : List (List String))
    (t : FluxTable)
    (hl : fs.lookup name = some (header :: body))
    (hok : read_flux fs name = .ok t) :
    t.colLabels = header.tail.map Label.str ∧
    List.Forall₂ (fun fields r => parseRow fields = some r) body t.rows ∧
    t.times = t.rows.map Prod.fst ∧
    (∀ fields r, parseRow fields = some r →
      pyFloat (fields.headD "") = some r.1) := by
  unfold read_flux at hok
  rw [hl] at hok
  cases header with
  | nil => exact absurd hok (by simp [read_table])
  | cons hlab cols =>
    have hdef : read_table ((hlab :: cols) :: body) =
        (match body.mapM parseRow with
         | none => .error .parseError
         | some rows =>
           if rows.all (fun r => r.2.length = cols.length) then
             ReadResult.ok ⟨cols.map Label.str, rows⟩
           else .error .parseError) := rfl
    replace hok : read_table ((hlab :: cols) :: body) = ReadResult.ok t := hok
    rw [hdef] at hok
    cases hb : body.mapM parseRow with
    | none =>
      rw [hb] at hok
      exact ReadResult.noConfusion hok
    | some rows =>
      rw [hb] at hok
      replace hok :
          (if (rows.all fun r => decide (r.2.length = cols.length)) = true then
            ReadResult.ok ⟨cols.map Label.str, rows⟩
          else ReadResult.error ReadError.parseError) = ReadResult.ok t := hok
      cases hall : rows.all (fun r => decide (r.2.length = cols.length)) with
      | false =>
        rw [if_neg (by simp [hall])] at hok
        exact ReadResult.noConfusion hok
      | true =>
        rw [if_pos hall] at hok
        cases hok
        refine ⟨rfl, mapM_option_forall₂ parseRow body rows hb, rfl, ?_⟩
        intro fields r hr
        cases fields with
        | nil => cases hr
        | cons tf vf =>
          rw [parseRow] at hr
          cases ht : pyFloat tf with
          | none => rw [ht] at hr; cases hr
          | some tq =>
            cases hv : vf.mapM pyFloat with
            | none => rw [ht, hv] at hr; cases hr
            | some vqs =>
              rw [ht, hv] at hr
              cases hr
              simpa using ht

/-- Witness for Claim C4 (amended) at the concrete well-formed file in
`fsGood`: the resulting column index is the header tail as strings. -/
theorem claim_C4_witness :
    (⟨[Label.str "1.0", Label.str "2.0"], [(0, [1, 2])]⟩ : FluxTable).colLabels =
      ["t", "1.0", "2.0"].tail.map Label.str :=
  (claim_C4_column_labels fsGood "flux.txt" ["t", "1.0", "2.0"]
    [["0.0", "1.0", "2.0"]] ⟨[Label.str "1.0", Label.str "2.0"], [(0, [1, 2])]⟩
    (by decide) read_flux_fsGood_eval).1

/-- Counterexample to Claim C5 as stated: reading a file whose distance
column header is the non-numeric string `"banana"` does not raise any error —
`read_flux` returns the table, keeping the header as a string label. -/
theorem claim_C5_counterexample :
    read_flux fsBad "flux.txt" = .ok ⟨[Label.str "banana"], [(0, [1])]⟩ :=
  read_flux_fsBad_eval

/-- Claim C5 (amended): reading a nonexistent or unreadable path raises the
file-read error, which propagates to the caller with no retry, no default
substitution and no partial result; a non-numeric column header does not make
`read_flux` fail — the failure surfaces later, as the `ValueError` raised when
a renderer converts the column labels with `float`, before anything is
drawn. -/
theorem claim_C5_error_paths (fs : List (String × List (List String)))
    (name : String) (h : fs.lookup name = none)
    (data : FluxTable) (q : ℚ) (ax : Option Axis)
    (hbad : data.colLabels.mapM Label.toFloat = none) :
    read_flux fs name = .error .fileReadError ∧
    (∀ t, read_flux fs name ≠ .ok t) ∧
    plot_inwardflux data q ax = ⟨ax.getD Axis.empty, .raised .valueError⟩ ∧
    plot_accretion data q ax = ⟨ax.getD Axis.empty, .raised .valueError⟩ := by
  have h1 : read_flux fs name = .error .fileReadError := by
    unfold read_flux
    rw [h]
  refine ⟨h1, ?_, plot_inwardflux_badlabels data q ax hbad,
    plot_accretion_badlabels data q ax hbad⟩
  intro t ht
  rw [h1] at ht
  cases ht

/-- Witness for Claim C5 (amended): the empty filesystem has no `"flux.txt"`,
and the table read from `fsBad` has a label `float` cannot convert. -/
theorem claim_C5_witness :
    read_flux [] "flux.txt" = .error .fileReadError ∧
    plot_inwardflux ⟨[Label.str "banana"], [(0, [1])]⟩ 0 none =
      ⟨Axis.empty, .raised .valueError⟩ :=
  ⟨(claim_C5_error_paths [] "flux.txt" rfl
      ⟨[Label.str "banana"], [(0, [1])]⟩ 0 none (by decide)).1,
   (claim_C5_error_paths [] "flux.txt" rfl
      ⟨[Label.str "banana"], [(0, [1])]⟩ 0 none (by decide)).2.2.1⟩

/-- Counterexample to Claim C6 as stated: the requested time `100` is far
outside the example index `[0, 1, 5/2, 5]`, yet the call does not fail — the
figure is returned and a line (the boundary row `[7, 8]`) is drawn. -/
theorem claim_C6_counterexample :
    (plot_inwardflux tbl4 100 none).outcome =
      .returned ⟨[(plot_inwardflux tbl4 100 none).axisAfter]⟩ ∧
    (plot_inwardflux tbl4 100 none).axisAfter.lines = [⟨[1, 2], [7, 8]⟩] := by
  rw [plot_inwardflux_none_eq tbl4 100 3 [1, 2] cti_tbl4_100 tbl4_labels]
  exact ⟨rfl, rfl⟩

/-- Claim C6 (amended): with an empty table (zero rows) both renderers
propagate the uncaught `ValueError` from `np.argmin` and draw nothing; a
requested time outside the index range is not a failure — for every non-empty
table the lookup still returns an in-bounds row index for every requested
time. -/
theorem claim_C6_failure_semantics (data : FluxTable) (q : ℚ) (ax : Option Axis)
    (h : data.rows = []) :
    plot_inwardflux data q ax = ⟨ax.getD Axis.empty, .raised .valueError⟩ ∧
    plot_accretion data q ax = ⟨ax.getD Axis.empty, .raised .valueError⟩ ∧
    (∀ d : FluxTable, ∀ p : ℚ, d.rows ≠ [] →
      ∃ i, closest_time_index d.times p = some i ∧ i < d.rows.length) := by
  refine ⟨plot_inwardflux_empty_rows data q ax h,
    plot_accretion_empty_rows data q ax h, ?_⟩
  intro d p hd
  have htimes : d.times ≠ [] := by
    simp only [FluxTable.times, ne_eq, List.map_eq_nil_iff]
    exact hd
  obtain ⟨i, hi, hlt, _, _⟩ := closest_time_index_spec d.times p htimes
  refine ⟨i, hi, ?_⟩
  simpa [FluxTable.times] using hlt

/-- Witness for Claim C6 (amended) at the concrete empty table. -/
theorem claim_C6_witness :
    plot_inwardflux emptyTable 0 none = ⟨Axis.empty, .raised .valueError⟩ :=
  (claim_C6_failure_semantics emptyTable 0 none rfl).1

/-- Counterexample to Claim C7 as stated: on the one-row, two-column table
`tbl1x2` the lookup succeeds, but the accretion output is `[2, 0]`, of length
2, not the claimed `[0]` of length 1. -/
theorem claim_C7_counterexample :
    (plot_accretion tbl1x2 7 none).axisAfter.lines = [⟨[1, 2], [2, 0]⟩] ∧
    accretion_of [1, 3] ≠ [0] := by
  constructor
  · rw [plot_accretion_none_eq tbl1x2 7 0 [1, 2] rfl tbl1x2_labels]
    have hrow : (tbl1x2.rows.getD 0 (0, [])).2 = [1, 3] := rfl
    simp only [hrow, accretion_pair]
  · rw [accretion_pair]
    simp

/-- Claim C7 (amended): for every table with exactly one row, nearest-time
lookup succeeds for any requested time — the sole row is selected, no crash —
and `plot_accretion`'s transform output has the same length as that row's
values; it equals `[0]` exactly when the row has a single value. -/
theorem claim_C7_single_row (labels : List Label) (t : ℚ) (vs : List ℚ) (q : ℚ)
    (hw : 1 ≤ vs.length) :
    closest_time_index (FluxTable.mk labels [(t, vs)]).times q = some 0 ∧
    (accretion_of vs).length = vs.length ∧
    (vs.length = 1 → accretion_of vs = [0]) ∧
    (∀ smas, labels.mapM Label.toFloat = some smas →
      (plot_accretion ⟨labels, [(t, vs)]⟩ q none).axisAfter.lines =
        [⟨smas, accretion_of vs⟩]) := by
  refine ⟨rfl, accretion_of_length vs hw, ?_, ?_⟩
  · intro h1
    cases vs with
    | nil => cases h1
    | cons x xs =>
      cases xs with
      | nil => exact accretion_of_singleton x
      | cons y ys => simp [List.length_cons] at h1
  · intro smas hs
    rw [plot_accretion_none_eq ⟨labels, [(t, vs)]⟩ q 0 smas rfl hs]
    rfl

/-- Witness for Claim C7 (amended) at a concrete one-row, one-column table:
the lookup selects row 0 and the transform gives `[0]`. -/
theorem claim_C7_witness :
    closest_time_index (FluxTable.mk [Label.num 1] [(0, [5])]).times 7 = some 0 ∧
    accretion_of [5] = [0] :=
  ⟨(claim_C7_single_row [Label.num 1] 0 [5] 7 (by simp)).1,
   (claim_C7_single_row [Label.num 1] 0 [5] 7 (by simp)).2.2.1 (by simp)⟩

/-- Claim C8: calling either renderer twice with the same table, time and
axis leaves the input table unchanged — the embedded calls only read `data`,
whose value both calls share — and each call appends one identical line
artist to the axis, so after the two calls the axis holds the original
artists followed by two equal new ones. -/
theorem claim_C8_idempotent_draws (data : FluxTable) (q : ℚ) (ax : Axis)
    (hrows : data.rows ≠ [])
    (smas : List ℚ) (hs : data.colLabels.mapM Label.toFloat = some smas) :
    ∃ ln1 ln2,
      (plot_inwardflux data q (some ax)).axisAfter.lines = ax.lines ++ [ln1] ∧
      (plot_inwardflux data q
        (some (plot_inwardflux data q (some ax)).axisAfter)).axisAfter.lines
        = ax.lines ++ [ln1, ln1] ∧
      (plot_accretion data q (some ax)).axisAfter.lines = ax.lines ++ [ln2] ∧
      (plot_accretion data q
        (some (plot_accretion data q (some ax)).axisAfter)).axisAfter.lines
        = ax.lines ++ [ln2, ln2] := by
  have htimes : data.times ≠ [] := by
    simp only [FluxTable.times, ne_eq, List.map_eq_nil_iff]
    exact hrows
  obtain ⟨i, hi, _, _, _⟩ := closest_time_index_spec data.times q htimes
  refine ⟨⟨smas, (data.rows.getD i (0, [])).2⟩,
    ⟨smas, accretion_of (data.rows.getD i (0, [])).2⟩, ?_, ?_, ?_, ?_⟩
  · rw [plot_inwardflux_some_eq data q ax i smas hi hs]
  · rw [plot_inwardflux_some_eq data q ax i smas hi hs,
      plot_inwardflux_some_eq data q _ i smas hi hs]
    simp
  · rw [plot_accretion_some_eq data q ax i smas hi hs]
  · rw [plot_accretion_some_eq data q ax i smas hi hs,
      plot_accretion_some_eq data q _ i smas hi hs]
    simp

/-- Witness for Claim C8 at the concrete table `tbl0` drawn twice on an
initially empty axis: after the first call one line is present. -/
theorem claim_C8_witness :
    (plot_inwardflux tbl0 0 (some Axis.empty)).axisAfter.lines.length = 1 := by
  obtain ⟨ln1, ln2, h1, h2, h3, h4⟩ :=
    claim_C8_idempotent_draws tbl0 0 Axis.empty (by simp [tbl0]) [1, 2] tbl0_labels
  rw [h1]
  rfl
